import Mathlib

/-!
Verification of the Slack competitor-insights bot against its specification.

The Python sources (`slack_competitor_bot.py`, `market_intel.py`) are shallowly
embedded below: Python `str` values become `String` (or `List Char` where the
character-level chunking arithmetic matters), Python dicts with a fixed key set
become structures with `Option` fields (a missing key is `none`), Python dicts
used as keyed registries become association lists, and the external
collaborators (Gong HTTP API, OpenAI, the Slack client) are modelled by passing
their responses in as explicit data.  Python truthiness on strings
(`if s: ...`) is modelled by an emptiness test, and `x or y` on strings by
`if x.isEmpty then y else x`.
-/

namespace SlackCompetitorBot

/-! ## Python string primitives -/

/-- `needle.isPrefixOf hay` at some position of `hay`: the model of Python's
substring containment test `needle in hay`. -/
def listContainsSeq (hay needle : List Char) : Bool :=
  match hay with
  | [] => needle.isEmpty
  | _ :: t => needle.isPrefixOf hay || listContainsSeq t needle

/-- Truthiness of an optional Python string: `None` and `""` are falsy. -/
def optTruthy : Option String → Bool
  | none => false
  | some s => !s.isEmpty

/-- Whitespace as Python's `str.strip` removes it (ASCII fragment). -/
def isPySpace (c : Char) : Bool := c.isWhitespace

/-- Python `str.strip()` over the character list. -/
def pyStrip (l : List Char) : List Char :=
  ((l.dropWhile isPySpace).reverse.dropWhile isPySpace).reverse

/-- Worker for Python `str.split(sep)` with a non-empty separator:
`acc` holds the current piece reversed. -/
def splitOnSeqAux (sep : List Char) : List Char → List Char → List (List Char)
  | [], acc => [acc.reverse]
  | c :: rest, acc =>
    if sep.isPrefixOf (c :: rest) then
      acc.reverse :: splitOnSeqAux sep (rest.drop (sep.length - 1)) []
    else
      splitOnSeqAux sep rest (c :: acc)
termination_by l _ => l.length
decreasing_by
  · simp only [List.length_drop, List.length_cons]
    omega
  · simp only [List.length_cons]
    omega

/-- Python `l.split(sep)` for a non-empty `sep`. -/
def pySplit (l sep : List Char) : List (List Char) :=
  splitOnSeqAux sep l []

/-- Python `str.lower()` (ASCII fragment, which covers every tracked
competitor name). -/
def pyLower (s : String) : String := String.mk (s.data.map Char.toLower)

/-- Model of `str(call_id).split("|")[0].strip()`: Gong occasionally embeds a
display title after a pipe character, so identifiers are truncated there. -/
def pyCleanId (cid : String) : String :=
  String.mk (pyStrip ((pySplit cid.data ['|']).headD cid.data))

/-! ## Data model of the Gong payloads (`slack_competitor_bot.py`) -/

/-- One entry of a call's `parties` array. -/
structure GongParty where
  speakerId : Option String
  name : Option String
  emailAddress : Option String
  affiliation : Option String
deriving DecidableEq, Repr

/-- One sentence of a transcript segment. -/
structure GongSentence where
  text : Option String
deriving DecidableEq, Repr

/-- One monologue segment of a call transcript. -/
structure GongSegment where
  speakerId : Option String
  sentences : List GongSentence
deriving DecidableEq, Repr

/-- The `metaData` object of a call record. -/
structure GongMeta where
  id : Option String
  title : Option String
  started : Option String
deriving DecidableEq, Repr

/-- A call record as returned by `/v2/calls/extensive`. -/
structure GongCall where
  metaData : GongMeta
  parties : List GongParty
deriving DecidableEq, Repr

/-- The transcripts dictionary built by `fetch_transcripts`, keyed by call id. -/
abbrev Transcripts := List (String × List GongSegment)

/-- Dictionary lookup on an association list (first binding wins; the stores
below keep keys unique, matching a Python dict). -/
def lookupKey {α : Type} (m : List (String × α)) (k : String) : Option α :=
  (m.find? (fun p => p.fst == k)).map Prod.snd

/-- The fixed competitor list scanned for in Gong transcripts
(`GONG_COMPETITORS`, aliased `COMPETITORS`). -/
def COMPETITORS : List String := ["MedScout", "Definitive Healthcare", "RepSignal"]

/-! ## Mention extractor: `build_call_context` -/

/-- Name, email and affiliation recorded for a speaker in `speaker_map`. -/
structure SpeakerInfo where
  name : String
  email : String
  affiliation : String
deriving DecidableEq, Repr

/-- The `speaker_map` entry a party contributes: parties with a missing or
empty (`falsy`) `speakerId` contribute nothing. -/
def partyEntry (p : GongParty) : Option (String × SpeakerInfo) :=
  match p.speakerId with
  | none => none
  | some sid =>
    if sid.isEmpty then none
    else some (sid, { name := p.name.getD "Unknown",
                      email := p.emailAddress.getD "",
                      affiliation := p.affiliation.getD "Unknown" })

/-- `speaker_map` lookup: later parties overwrite earlier ones, as in a Python
dict built by iterated assignment. -/
def speakerMapFind (parties : List GongParty) (sid : String) : Option SpeakerInfo :=
  (((parties.filterMap partyEntry).reverse).find? (fun e => e.fst == sid)).map Prod.snd

/-- The id a party contributes to `external_speaker_ids`: a truthy
`speakerId` whose party's `affiliation` field is exactly `"External"`. -/
def externalIdOf (p : GongParty) : Option String :=
  match p.speakerId with
  | none => none
  | some sid =>
    if sid.isEmpty then none
    else if p.affiliation == some "External" then some sid else none

/-- `external_speaker_ids`. -/
def external_speaker_ids (parties : List GongParty) : List String :=
  parties.filterMap externalIdOf

/-- `full_text`: the segment's sentence texts joined by single spaces. -/
def segFullText (seg : GongSegment) : String :=
  String.intercalate " " (seg.sentences.map (fun s => s.text.getD ""))

/-- `mentioned_competitors`: every competitor whose lowercased name occurs in
the lowercased utterance text. -/
def mentionedCompetitors (t : String) : List String :=
  COMPETITORS.filter (fun comp => listContainsSeq (pyLower t).data (pyLower comp).data)

/-- One element of a call context's `segments` list. -/
structure MentionSeg where
  speaker : String
  affiliation : String
  text : String
  competitors_mentioned : List String
deriving DecidableEq, Repr

/-- The body of `build_call_context`'s segment loop: skip segments whose
speaker is not in `external_speaker_ids`, then keep the segment exactly when
it mentions at least one competitor, recording all of them. -/
def mentionOfSegment (parties : List GongParty) (seg : GongSegment) : Option MentionSeg :=
  match seg.speakerId with
  | none => none
  | some sid =>
    if (external_speaker_ids parties).contains sid then
      let fullText := segFullText seg
      let mentioned := mentionedCompetitors fullText
      if mentioned.isEmpty then none
      else
        let info := (speakerMapFind parties sid).getD
          { name := "Unknown", email := "", affiliation := "External" }
        some { speaker := info.name, affiliation := info.affiliation,
               text := fullText, competitors_mentioned := mentioned }
    else none

/-- One entry of `build_call_context`'s result. -/
structure CallContext where
  call_id : String
  title : String
  date : String
  segments : List MentionSeg
deriving DecidableEq, Repr

/-- The body of `build_call_context`'s call loop: calls with a falsy id, no
transcript, or no qualifying segment contribute nothing. -/
def processCall (transcripts : Transcripts) (call : GongCall) : Option CallContext :=
  match call.metaData.id with
  | none => none
  | some cid =>
    if cid.isEmpty then none
    else
      match lookupKey transcripts cid with
      | none => none
      | some segs =>
        let relevant := segs.filterMap (mentionOfSegment call.parties)
        if relevant.isEmpty then none
        else some { call_id := pyCleanId cid,
                    title := call.metaData.title.getD "Untitled Call",
                    date := call.metaData.started.getD "",
                    segments := relevant }

/-- `build_call_context`: the mention extractor. -/
def build_call_context (calls : List GongCall) (transcripts : Transcripts) : List CallContext :=
  calls.filterMap (processCall transcripts)

/-! Specification-level predicates for the extractor, written from the spec's
words rather than the code. -/

/-- The spec's "case-insensitive substring": the lowercased needle occurs
contiguously inside the lowercased haystack. -/
def ciSubstring (needle hay : String) : Prop :=
  ∃ l r : List Char, (pyLower hay).data = l ++ (pyLower needle).data ++ r

/-- The spec's "the segment's speaker id belongs to a party whose affiliation
is External" (a missing or empty identifier counts as no identifier). -/
def externallyVoiced (parties : List GongParty) (seg : GongSegment) : Prop :=
  ∃ sid p, seg.speakerId = some sid ∧ sid ≠ "" ∧ p ∈ parties ∧
    p.speakerId = some sid ∧ p.affiliation = some "External"

/-- The spec's condition for a segment to yield a Mention. -/
def segmentQualifies (parties : List GongParty) (seg : GongSegment) : Prop :=
  externallyVoiced parties seg ∧
    ∃ comp, comp ∈ COMPETITORS ∧ ciSubstring comp (segFullText seg)

/-! ## Insight synthesizer wrapper: `analyze_with_ai` -/

/-- An insight-shaped JSON object as the synthesizer returns it: every key is
optional (the renderer applies per-key defaults). -/
structure Insight where
  competitor : Option String
  category : Option String
  summary : Option String
  quote : Option String
  sentiment : Option String
  call_title : Option String
  call_date : Option String
  call_id : Option String
deriving DecidableEq, Repr

/-- The id-sanitizing pass of `analyze_with_ai`: a truthy `call_id` is
truncated at the pipe character and stripped. -/
def cleanInsight (i : Insight) : Insight :=
  match i.call_id with
  | none => i
  | some cid => if cid.isEmpty then i else { i with call_id := some (pyCleanId cid) }

/-- The shape of the synthesizer's reply after `json.loads`, as
`analyze_with_ai` discriminates it: a decode failure, a JSON array, an object
whose `"insights"` key holds an array, an object whose `"insights"` key holds
something else, an object without the key (then `result.get("insights",
result)` yields the object itself, which is not a list), or any other JSON
value. -/
inductive AIResponse
  | badJson
  | arr (xs : List Insight)
  | objInsightsList (xs : List Insight)
  | objInsightsOther
  | objNoInsights
  | scalar
deriving DecidableEq, Repr

/-- The post-parse logic of `analyze_with_ai`: clean every insight's id, then
return `insights[:6]`; every non-list shape collapses to `[]`. -/
def extractInsights : AIResponse → List Insight
  | .arr xs => (xs.map cleanInsight).take 6
  | .objInsightsList xs => (xs.map cleanInsight).take 6
  | _ => []

/-- `analyze_with_ai`, with the OpenAI call modelled by passing its (parsed)
response in: an empty context list short-circuits to `[]`. -/
def analyze_with_ai (call_contexts : List CallContext) (response : AIResponse) : List Insight :=
  if call_contexts.isEmpty then [] else extractInsights response

/-! ## Market-intel validation: `synthesize_intel` (`market_intel.py`) -/

/-- An intel-bullet-shaped JSON object. -/
structure IntelBullet where
  bullet : Option String
  source_url : Option String
deriving DecidableEq, Repr

/-- The value a competitor key holds in the collaborator's parsed reply: a
JSON array of bullet objects, or any non-list value. -/
inductive IntelValue
  | list (bs : List IntelBullet)
  | nonList
deriving DecidableEq, Repr

/-- The collaborator interaction of `synthesize_intel`: either the request,
the JSON parse or the model call raised (the `except` path), or a parsed JSON
object was obtained. -/
inductive IntelResponse
  | failed
  | parsed (result : List (String × IntelValue))
deriving DecidableEq, Repr

/-- The competitors tracked by the market-intel module
(`MARKET_INTEL_COMPETITORS`). -/
def MARKET_INTEL_COMPETITORS : List String :=
  ["Veeva Systems", "Definitive Healthcare", "Alpha Sophia", "IQVIA"]

/-- The per-competitor validation step of `synthesize_intel`:
`result.get(competitor, [])` capped at 3 when it is a list, else `[]`. -/
def validatedFor (result : List (String × IntelValue)) (c : String) :
    String × List IntelBullet :=
  match lookupKey result c with
  | some (.list bs) => (c, bs.take 3)
  | some .nonList => (c, [])
  | none => (c, [])

/-- The validation pass of `synthesize_intel`: each tracked competitor maps to
its list capped at 3, a missing or non-list value becoming `[]`; a failed
call yields all-empty lists. -/
def synthesize_intel (response : IntelResponse) : List (String × List IntelBullet) :=
  match response with
  | .failed => MARKET_INTEL_COMPETITORS.map (fun c => (c, []))
  | .parsed result => MARKET_INTEL_COMPETITORS.map (validatedFor result)

/-! ## Transcript fetcher pagination: `fetch_calls_from_gong` -/

/-- One HTTP response of the paginated `/v2/calls/extensive` endpoint. -/
structure GongPage where
  status : Nat
  calls : List GongCall
  cursor : Option String
deriving DecidableEq, Repr

/-- Python truthiness of `records.get("cursor")`: a missing or empty cursor is
falsy. -/
def cursorTruthy : Option String → Bool
  | none => false
  | some s => !s.isEmpty

/-- The `while True` loop of `fetch_calls_from_gong`, driven by the sequence
of responses the API returns: a non-200 response breaks immediately (its
calls are not consumed), otherwise the page's calls are accumulated and the
loop continues exactly when the cursor is truthy. -/
def fetch_calls_from_gong : List GongPage → List GongCall
  | [] => []
  | page :: rest =>
    if page.status ≠ 200 then []
    else page.calls ++ (if cursorTruthy page.cursor then fetch_calls_from_gong rest else [])

/-- Spec-level reading of §4.1: the pages consumed are those up to and
including the first whose cursor is missing or empty. -/
def consumedPages : List GongPage → List GongPage
  | [] => []
  | page :: rest =>
    if cursorTruthy page.cursor then page :: consumedPages rest else [page]

/-! ## Message chunking for edited free text

`handle_approve` and `handle_edit_submission` both split an edited blob that
exceeds 2900 characters on the `---` section delimiter and greedily repack
the sections.  The arithmetic is character-level, so this part is embedded
over `List Char`. -/

/-- The per-block ceiling both chunkers use (`max_chars = 2900`). -/
def SLACK_MAX_CHARS : Nat := 2900

/-- The `---` delimiter both chunkers split on. -/
def dashesSep : List Char := ['-', '-', '-']

/-- The joiner `handle_approve` re-inserts between packed sections
(`"\n---"`). -/
def newlineDashesSep : List Char := ['\n', '-', '-', '-']

/-- The greedy packing loop shared (up to the joiner) by `handle_approve` and
`handle_edit_submission`: a section joins the current chunk when
`len(current_chunk) + len(section) + 4 <= max_chars`, otherwise the stripped
chunk is emitted (unless whitespace-only) and the section starts a new chunk;
the final chunk is flushed the same way. -/
def packChunks (joiner : List Char) : List (List Char) → List Char → List (List Char) → List (List Char)
  | [], chunk, acc =>
    if (pyStrip chunk).isEmpty then acc else acc ++ [pyStrip chunk]
  | s :: rest, chunk, acc =>
    if chunk.length + s.length + 4 ≤ SLACK_MAX_CHARS then
      if chunk.isEmpty then packChunks joiner rest s acc
      else packChunks joiner rest (chunk ++ joiner ++ s) acc
    else
      packChunks joiner rest s
        (if (pyStrip chunk).isEmpty then acc else acc ++ [pyStrip chunk])

/-- The content blocks `handle_approve` renders for an edited blob: one block
when it fits, otherwise the greedy repacking with the `"\n---"` joiner. -/
def approveEditedChunks (t : List Char) : List (List Char) :=
  if t.length ≤ SLACK_MAX_CHARS then [t]
  else packChunks newlineDashesSep (pySplit t dashesSep) [] []

/-- The content blocks `handle_edit_submission` renders when re-posting an
edited digest: same structure, but sections are re-joined with `"---"` (the
bound still reserves 4 characters). -/
def resendEditedChunks (t : List Char) : List (List Char) :=
  if t.length ≤ SLACK_MAX_CHARS then [t]
  else packChunks dashesSep (pySplit t dashesSep) [] []

/-! ## Slack Block Kit rendering: `format_slack_blocks` -/

/-- A rendered Slack block, keeping the kind and the displayed text (an
`actions` block keeps the digest id each of its three buttons carries). -/
inductive SBlock
  | header (text : String)
  | context (text : String)
  | divider
  | sectionBlock (text : String)
  | actions (buttonValues : List String)
deriving DecidableEq, Repr

/-- The displayed text of a block (empty for dividers and buttons). -/
def blockText : SBlock → String
  | .header t => t
  | .context t => t
  | .sectionBlock t => t
  | .divider => ""
  | .actions _ => ""

/-- Whether a block's text contains `s` as a substring. -/
def blockMentions (b : SBlock) (s : String) : Bool :=
  listContainsSeq (blockText b).data s.data

/-- The combined display order of competitors (`ALL_COMPETITORS_ORDER`). -/
def ALL_COMPETITORS_ORDER : List String :=
  ["Veeva Systems", "Definitive Healthcare", "IQVIA", "MedScout", "RepSignal", "Alpha Sophia"]

/-- Month names for the model of `strftime("%B %d, %Y")`. -/
def MONTH_NAMES : List (String × String) :=
  [("01", "January"), ("02", "February"), ("03", "March"), ("04", "April"),
   ("05", "May"), ("06", "June"), ("07", "July"), ("08", "August"),
   ("09", "September"), ("10", "October"), ("11", "November"), ("12", "December")]

/-- Model of `datetime.fromisoformat(iso).strftime("%B %d, %Y")` on the ISO
strings the bot produces (`YYYY-MM-DD...`). -/
def formatDateHuman (iso : String) : String :=
  let cs := iso.data
  let year := String.mk (cs.take 4)
  let monthName := (lookupKey MONTH_NAMES (String.mk ((cs.drop 5).take 2))).getD "Unknown"
  let day := String.mk ((cs.drop 8).take 2)
  monthName ++ " " ++ day ++ ", " ++ year

/-- The `sentiment_emoji` mapping. -/
def SENTIMENT_EMOJI : List (String × String) :=
  [("Favorable to AcuityMD", ":large_green_circle:"),
   ("Unfavorable to AcuityMD", ":red_circle:"),
   ("Neutral", ":white_circle:")]

/-- The Gong insights grouped under a competitor (`grouped_gong[comp]`): an
insight's missing competitor key defaults to `"Unknown"`. -/
def insightsFor (insights : List Insight) (comp : String) : List Insight :=
  insights.filter (fun i => i.competitor.getD "Unknown" == comp)

/-- `comp in grouped_gong`. -/
def hasGong (insights : List Insight) (comp : String) : Bool :=
  !(insightsFor insights comp).isEmpty

/-- `bool(market_intel.get(comp))`. -/
def hasMarket (intel : List (String × List IntelBullet)) (comp : String) : Bool :=
  match lookupKey intel comp with
  | some bs => !bs.isEmpty
  | none => false

/-- `active_competitors`: the tracked competitors holding any data, in the
fixed display order, with an `"Unknown"` bucket appended when some insight
fell outside the tracked set. -/
def active_competitors (insights : List Insight)
    (intel : List (String × List IntelBullet)) : List String :=
  ALL_COMPETITORS_ORDER.filter (fun c => hasGong insights c || hasMarket intel c)
    ++ (if hasGong insights "Unknown" then ["Unknown"] else [])

/-- The mrkdwn text of one insight section. -/
def insightText (i : Insight) : String :=
  let sentiment := i.sentiment.getD "Neutral"
  let emoji := (lookupKey SENTIMENT_EMOJI sentiment).getD ":white_circle:"
  let base := emoji ++ " _" ++ i.category.getD "General" ++ "_\n\n" ++ i.summary.getD "" ++ "\n\n"
  let withQuote :=
    match i.quote with
    | some q => if q.isEmpty then base else base ++ "> \"" ++ q ++ "\"\n\n"
    | none => base
  let sourceLine := "_Source: " ++ i.call_title.getD "Unknown Call" ++ " (" ++ i.call_date.getD "Unknown Date" ++ ")_"
  match i.call_id with
  | none => withQuote ++ sourceLine
  | some cid =>
    if cid.isEmpty then withQuote ++ sourceLine
    else
      let cleaned := pyCleanId cid
      if cleaned.isEmpty then withQuote ++ sourceLine
      else withQuote ++ sourceLine ++ "\n" ++ "https://app.gong.io/call?id=" ++ cleaned

/-- The mrkdwn text of one market-intel bullet section. -/
def bulletText (b : IntelBullet) : String :=
  let base := ":satellite: " ++ b.bullet.getD ""
  match b.source_url with
  | some u => if u.isEmpty then base else base ++ "\n_<" ++ u ++ "|Source>_"
  | none => base

/-- The blocks one active competitor contributes: its bold header, its Gong
insight sections, its market-intel bullet sections, and a trailing divider. -/
def competitorSection (insights : List Insight)
    (intel : List (String × List IntelBullet)) (comp : String) : List SBlock :=
  [SBlock.sectionBlock ("*" ++ comp ++ "*")]
    ++ (insightsFor insights comp).map (fun i => SBlock.sectionBlock (insightText i))
    ++ ((lookupKey intel comp).getD []).map (fun b => SBlock.sectionBlock (bulletText b))
    ++ [SBlock.divider]

/-- The all-empty placeholder text. -/
def NO_DATA_TEXT : String :=
  "_No competitor intelligence found this week — no Gong mentions or notable market signals._"

/-- The `*Sources:*` context fragment. -/
def sourcesLabel (insights : List Insight)
    (intel : List (String × List IntelBullet)) : String :=
  let parts := (if insights.isEmpty then [] else [":headphones: Gong calls"])
    ++ (if MARKET_INTEL_COMPETITORS.any (fun c => hasMarket intel c) then [":satellite: Market signals"] else [])
  if parts.isEmpty then "No data" else String.intercalate " + " parts

/-- `blocks.pop()` of the trailing divider. -/
def dropTrailingDivider (blocks : List SBlock) : List SBlock :=
  match blocks.getLast? with
  | some SBlock.divider => blocks.dropLast
  | _ => blocks

/-- `format_slack_blocks`: header, period/sources context and divider, then
either the all-empty placeholder or one section run per active competitor,
with the trailing divider removed. -/
def format_slack_blocks (insights : List Insight) (date_range : String × String)
    (intel : List (String × List IntelBullet)) : List SBlock :=
  let headerBlocks : List SBlock :=
    [SBlock.header "Competitor Intelligence Report",
     SBlock.context ("*Period:* " ++ formatDateHuman date_range.1 ++ " - "
       ++ formatDateHuman date_range.2 ++ " | *Sources:* " ++ sourcesLabel insights intel),
     SBlock.divider]
  let active := active_competitors insights intel
  if active.isEmpty then headerBlocks ++ [SBlock.sectionBlock NO_DATA_TEXT]
  else dropTrailingDivider (headerBlocks ++ (active.map (competitorSection insights intel)).flatten)

/-! ## Digest store and action handlers

`pending_digests` is a process-global dict keyed by an 8-character digest id;
it is modelled as an association list with unique keys.  The Slack client
calls are modelled as returning normally, except for the `try` block of
`handle_approve`, whose success is an explicit `publishOk` argument (it is the
only guarded client interaction, and the one the spec's error-handling claims
are about). -/

/-- One `pending_digests` entry: the fields `format_approval_message` creates,
plus the `edited_text` / `message_ts` / `channel_id` fields the handlers add
opportunistically (absent until first set). -/
structure DigestData where
  insights : List Insight
  date_range : String × String
  market_intel : List (String × List IntelBullet)
  editable_text : String
  edited_text : Option String
  message_ts : Option String
  channel_id : Option String
deriving DecidableEq, Repr

/-- The in-memory digest registry. -/
abbrev DigestStore := List (String × DigestData)

/-- `pending_digests.get(digest_id)`. -/
def storeGet (store : DigestStore) (digestId : String) : Option DigestData :=
  lookupKey store digestId

/-- In-place mutation of the entry under an existing key (the handlers only
ever mutate the dict object they just looked up). -/
def storeSet (store : DigestStore) (digestId : String) (d : DigestData) : DigestStore :=
  store.map (fun p => if p.fst == digestId then (digestId, d) else p)

/-- `pending_digests.pop(digest_id, None)`. -/
def storeRemove (store : DigestStore) (digestId : String) : DigestStore :=
  store.filter (fun p => p.fst != digestId)

/-- The channel approved digests are published to (`TARGET_CHANNEL`). -/
def TARGET_CHANNEL : String := "#competitors"

/-- The notice `handle_approve` and `handle_edit` post for an unknown id. -/
def EXPIRED_TEXT : String := "Sorry, this digest has expired. Please generate a new one."

/-- The terminal text `handle_dismiss` writes over the review message. -/
def DISMISSED_TEXT : String := ":x: *Digest dismissed.* No action taken."

/-- The introduction section of an approved edited digest. -/
def APPROVE_INTRO : String :=
  "This is our first attempt at an AI-generated competitor digest that peruses last week's gong calls for competitor mentions. Let us know what you think and if you have any suggestions to improve this!"

/-- Footer of an approved edited digest. -/
def EDITED_FOOTER : String :=
  "_This report was automatically generated from Gong call analysis and public market intelligence sources, then edited before posting._"

/-- Footer of an approved unedited digest. -/
def ORIGINAL_FOOTER : String :=
  "_This report was automatically generated from Gong call analysis and public market intelligence sources._"

/-- The blocks `handle_approve` publishes when an edited override exists. -/
def approveEditedBlocks (editedText : String) : List SBlock :=
  [SBlock.header "Competitor Insights Report", SBlock.sectionBlock APPROVE_INTRO, SBlock.divider]
    ++ (approveEditedChunks editedText.data).map (fun c => SBlock.sectionBlock (String.mk c))
    ++ [SBlock.divider, SBlock.context EDITED_FOOTER]

/-- The final content `handle_approve` publishes: the chunked edited override
when the `edited_text` key exists (even empty), else the re-rendered
structured digest with its footer. -/
def approveBlocks (d : DigestData) : List SBlock :=
  match d.edited_text with
  | some t => approveEditedBlocks t
  | none =>
    format_slack_blocks d.insights d.date_range d.market_intel
      ++ [SBlock.divider, SBlock.context ORIGINAL_FOOTER]

/-- What `handle_approve` did: posted the expiry notice to the interacting
channel, published to the target channel and rewrote the review message, or
(the `except` path) posted an error notice to the interacting channel. -/
inductive ApproveOutcome
  | expiredNotice (channel : String) (text : String)
  | published (targetChannel : String) (blocks : List SBlock) (updatedChannel : String) (updatedTs : String)
  | errorNotice (channel : String)
deriving DecidableEq, Repr

/-- `handle_approve`: an unknown id yields the expiry notice and changes
nothing; on a known id the content is built and published, the review message
updated and the entry popped — unless a client call in the `try` block raises
(`publishOk = false`), in which case the entry is left in place and an error
notice goes to the interacting channel. -/
def handle_approve (store : DigestStore) (bodyChannel bodyTs digestId : String)
    (publishOk : Bool) : DigestStore × ApproveOutcome :=
  match storeGet store digestId with
  | none => (store, .expiredNotice bodyChannel EXPIRED_TEXT)
  | some d =>
    if publishOk then
      (storeRemove store digestId, .published TARGET_CHANNEL (approveBlocks d) bodyChannel bodyTs)
    else
      (store, .errorNotice bodyChannel)

/-- What `handle_dismiss` did: it always rewrites the review message it was
invoked from to the dismissed notice (there is no expiry branch). -/
inductive DismissOutcome
  | dismissedNotice (channel ts text : String)
deriving DecidableEq, Repr

/-- `handle_dismiss`: pop the id (a no-op when absent) and rewrite the
originating message to the dismissed notice, unconditionally. -/
def handle_dismiss (store : DigestStore) (bodyChannel bodyTs digestId : String) :
    DigestStore × DismissOutcome :=
  (storeRemove store digestId, .dismissedNotice bodyChannel bodyTs DISMISSED_TEXT)

/-- What `handle_edit` did: expiry notice, or a modal seeded with the shown
initial value. -/
inductive EditOutcome
  | expiredNotice (channel : String) (text : String)
  | modalOpened (initialValue : String)
deriving DecidableEq, Repr

/-- `data.get("edited_text") or data.get("editable_text", "")`: Python `or`
falls through on a falsy (empty) edited text. -/
def currentEditText (d : DigestData) : String :=
  match d.edited_text with
  | some t => if t.isEmpty then d.editable_text else t
  | none => d.editable_text

/-- `handle_edit`: on a known id, record the originating message reference on
the entry and open the edit modal seeded with the current text. -/
def handle_edit (store : DigestStore) (bodyChannel bodyTs digestId : String) :
    DigestStore × EditOutcome :=
  match storeGet store digestId with
  | none => (store, .expiredNotice bodyChannel EXPIRED_TEXT)
  | some d =>
    let d1 := { d with message_ts := some bodyTs, channel_id := some bodyChannel }
    (storeSet store digestId d1, .modalOpened (currentEditText d1))

/-- What `handle_edit_submission` did: silently logged an unknown id, re-sent
the digest as a fresh review message, or had no stored channel to post to. -/
inductive SubmitOutcome
  | notFound
  | resent (channel : String) (blocks : List SBlock) (newTs : String)
  | noChannel
deriving DecidableEq, Repr

/-- The fresh review message `handle_edit_submission` posts: header, the
chunked edited text, and the three action buttons carrying the digest id. -/
def resendBlocks (digestId editedText : String) : List SBlock :=
  [SBlock.header "Competitor Insights Report (Edited)"]
    ++ (resendEditedChunks editedText.data).map (fun c => SBlock.sectionBlock (String.mk c))
    ++ [SBlock.divider,
        SBlock.sectionBlock "*Ready to post this edited digest to #competitors?*",
        SBlock.actions [digestId, digestId, digestId]]

/-- `handle_edit_submission`: store the submitted text as the override, and
when a channel reference was recorded, post the fresh review message and
re-point the tracked message reference at it (`newTs` models the posted
message's timestamp). -/
def handle_edit_submission (store : DigestStore) (digestId newText newTs : String) :
    DigestStore × SubmitOutcome :=
  match storeGet store digestId with
  | none => (store, .notFound)
  | some d =>
    let d1 := { d with edited_text := some newText }
    match d1.channel_id with
    | some ch =>
      (storeSet store digestId { d1 with message_ts := some newTs },
       .resent ch (resendBlocks digestId newText) newTs)
    | none => (storeSet store digestId d1, .noChannel)

/-! ## Concrete demonstration inputs (used by witnesses and counterexamples) -/

/-- An external party. -/
def demoParty : GongParty :=
  { speakerId := some "spk-ext", name := some "Pat Doe",
    emailAddress := some "pat@example.com", affiliation := some "External" }

/-- A transcript segment voiced by the external party, naming two
competitors. -/
def demoSegment : GongSegment :=
  { speakerId := some "spk-ext",
    sentences := [{ text := some "We also looked at MedScout and RepSignal" }] }

/-- An insight-shaped object with no optional keys beyond the competitor. -/
def blankInsight : Insight :=
  { competitor := some "MedScout", category := none, summary := none,
    quote := none, sentiment := none, call_title := none, call_date := none,
    call_id := none }

/-- Seven synthesizer insights, one over the cap. -/
def sevenInsights : List Insight := List.replicate 7 blankInsight

/-- A non-empty call-context list (its content is irrelevant to the cap). -/
def demoContext : CallContext :=
  { call_id := "call-1", title := "Demo call", date := "2025-01-07T10:00:00Z",
    segments := [] }

/-- Two distinguishable call records for the pagination model. -/
def demoGongCallA : GongCall :=
  { metaData := { id := some "gc-a", title := none, started := none }, parties := [] }

/-- See `demoGongCallA`. -/
def demoGongCallB : GongCall :=
  { metaData := { id := some "gc-b", title := none, started := none }, parties := [] }

/-- A failing page that still carries a next-page cursor. -/
def errorPage : GongPage :=
  { status := 500, calls := [demoGongCallA], cursor := some "next-cursor" }

/-- A successful page with a truthy cursor. -/
def okPageWithCursor : GongPage :=
  { status := 200, calls := [demoGongCallA], cursor := some "next-cursor" }

/-- A successful final page (no cursor). -/
def finalPage : GongPage :=
  { status := 200, calls := [demoGongCallB], cursor := none }

/-- A pending digest as `format_approval_message` creates it, after `Edit`
was clicked once (so a channel reference is recorded). -/
def demoDigest : DigestData :=
  { insights := [blankInsight],
    date_range := ("2025-01-06T00:00:00Z", "2025-01-12T23:59:59Z"),
    market_intel := [],
    editable_text := "*COMPETITOR INTELLIGENCE REPORT*",
    edited_text := none,
    message_ts := some "100.1",
    channel_id := some "D042" }

/-- An edited blob of 2901 identical characters: longer than the block
ceiling, with no `---` delimiter anywhere. -/
def oversizedBlob : List Char := List.replicate 2901 'a'

/-- The date range used by the rendering examples. -/
def demoDateRange : String × String :=
  ("2025-01-06T00:00:00Z", "2025-01-12T23:59:59Z")

/-! ## Helper lemmas -/

theorem isPrefixOf_true_iff_append (l₁ l₂ : List Char) :
    l₁.isPrefixOf l₂ = true ↔ ∃ t, l₂ = l₁ ++ t := by
  induction l₁ generalizing l₂ with
  | nil => simp [List.isPrefixOf]
  | cons a l ih =>
    cases l₂ with
    | nil => simp [List.isPrefixOf]
    | cons b t =>
      simp only [List.isPrefixOf, Bool.and_eq_true, beq_iff_eq, ih, List.cons_append,
        List.cons.injEq]
      constructor
      · rintro ⟨rfl, s, rfl⟩
        exact ⟨s, rfl, rfl⟩
      · rintro ⟨s, rfl, rfl⟩
        exact ⟨rfl, s, rfl⟩

theorem listContainsSeq_true_iff (hay needle : List Char) :
    listContainsSeq hay needle = true ↔ ∃ l r, hay = l ++ needle ++ r := by
  induction hay with
  | nil =>
    simp only [listContainsSeq, List.isEmpty_iff]
    constructor
    · rintro rfl
      exact ⟨[], [], rfl⟩
    · rintro ⟨l, r, h⟩
      rcases List.append_eq_nil.mp h.symm with ⟨h1, h2⟩
      exact (List.append_eq_nil.mp h1).2
  | cons c t ih =>
    simp only [listContainsSeq, Bool.or_eq_true, ih, isPrefixOf_true_iff_append]
    constructor
    · rintro (⟨s, hs⟩ | ⟨l, r, rfl⟩)
      · exact ⟨[], s, by simpa using hs⟩
      · exact ⟨c :: l, r, rfl⟩
    · rintro ⟨l, r, h⟩
      cases l with
      | nil => exact Or.inl ⟨r, by simpa using h⟩
      | cons a l =>
        simp only [List.cons_append, List.cons.injEq] at h
        exact Or.inr ⟨l, r, h.2⟩

theorem string_ne_empty_iff_isEmpty_false (s : String) :
    s ≠ "" ↔ s.isEmpty = false := by
  rw [ne_eq, Bool.eq_false_iff, ne_eq, not_iff_not]
  exact (String.isEmpty_iff s).symm

theorem externalIdOf_eq_some_iff (p : GongParty) (sid : String) :
    externalIdOf p = some sid ↔
      p.speakerId = some sid ∧ sid ≠ "" ∧ p.affiliation = some "External" := by
  cases hsp : p.speakerId with
  | none => simp [externalIdOf, hsp]
  | some s =>
    by_cases hse : s.isEmpty = true
    · have hs0 : s = "" := (String.isEmpty_iff s).mp hse
      subst hs0
      simp only [externalIdOf, hsp]
      rw [if_pos hse]
      constructor
      · rintro h
        cases h
      · rintro ⟨heq, hne, -⟩
        injection heq with heq
        exact absurd heq.symm hne
    · by_cases haff : (p.affiliation == some "External") = true
      · have haffeq : p.affiliation = some "External" := beq_iff_eq.mp haff
        simp only [externalIdOf, hsp]
        rw [if_neg hse, if_pos haff]
        constructor
        · rintro h
          injection h with h
          subst h
          exact ⟨rfl, fun hh => hse (by rw [hh]; rfl), haffeq⟩
        · rintro ⟨hid, hne, -⟩
          exact hid
      · simp only [externalIdOf, hsp]
        rw [if_neg hse, if_neg haff]
        constructor
        · rintro h
          cases h
        · rintro ⟨-, -, h⟩
          exact absurd (beq_iff_eq.mpr h) haff

theorem mem_external_speaker_ids (parties : List GongParty) (sid : String) :
    sid ∈ external_speaker_ids parties ↔
      ∃ p, p ∈ parties ∧ p.speakerId = some sid ∧ sid ≠ "" ∧
        p.affiliation = some "External" := by
  simp only [external_speaker_ids, List.mem_filterMap, externalIdOf_eq_some_iff]

theorem mem_mentionedCompetitors (t comp : String) :
    comp ∈ mentionedCompetitors t ↔ comp ∈ COMPETITORS ∧ ciSubstring comp t := by
  simp only [mentionedCompetitors, List.mem_filter, ciSubstring,
    listContainsSeq_true_iff]

theorem mentionedCompetitors_ne_nil_iff (t : String) :
    mentionedCompetitors t ≠ [] ↔
      ∃ comp, comp ∈ COMPETITORS ∧ ciSubstring comp t := by
  constructor
  · intro h
    rcases hm : mentionedCompetitors t with _ | ⟨c, cs⟩
    · exact absurd hm h
    · have hc : c ∈ mentionedCompetitors t := by
        rw [hm]
        exact List.mem_cons_self c cs
      rw [mem_mentionedCompetitors] at hc
      exact ⟨c, hc.1, hc.2⟩
  · rintro ⟨comp, h1, h2⟩ hnil
    have hc : comp ∈ mentionedCompetitors t :=
      (mem_mentionedCompetitors t comp).mpr ⟨h1, h2⟩
    rw [hnil] at hc
    cases hc

theorem mentionOfSegment_isSome_iff (parties : List GongParty) (seg : GongSegment) :
    (mentionOfSegment parties seg).isSome = true ↔ segmentQualifies parties seg := by
  cases hsp : seg.speakerId with
  | none =>
    have hval : mentionOfSegment parties seg = none := by
      simp [mentionOfSegment, hsp]
    rw [hval]
    simp only [Option.isSome_none, Bool.false_eq_true, false_iff]
    rintro ⟨⟨sid, p, hs, -⟩, -⟩
    rw [hsp] at hs
    cases hs
  | some sid =>
    by_cases hext : (external_speaker_ids parties).contains sid = true
    · by_cases hm : (mentionedCompetitors (segFullText seg)).isEmpty = true
      · have hval : mentionOfSegment parties seg = none := by
          simp [mentionOfSegment, hsp, hext, hm]
        rw [hval]
        simp only [Option.isSome_none, Bool.false_eq_true, false_iff]
        rintro ⟨-, comp, hcomp, hsub⟩
        rw [List.isEmpty_iff] at hm
        exact (mentionedCompetitors_ne_nil_iff (segFullText seg)).mpr
          ⟨comp, hcomp, hsub⟩ hm
      · have hval : (mentionOfSegment parties seg).isSome = true := by
          simp [mentionOfSegment, hsp, hext, hm, List.elem_iff.mp hext]
        rw [hval]
        simp only [true_iff]
        rw [Bool.not_eq_true, Bool.eq_false_iff, ne_eq, List.isEmpty_iff] at hm
        obtain ⟨comp, hcomp⟩ :=
          (mentionedCompetitors_ne_nil_iff (segFullText seg)).mp hm
        have hmem := List.elem_iff.mp hext
        rw [mem_external_speaker_ids] at hmem
        obtain ⟨p, hp, hpid, hne, haff⟩ := hmem
        exact ⟨⟨sid, p, hsp, hne, hp, hpid, haff⟩, comp, hcomp.1, hcomp.2⟩
    · have hval : mentionOfSegment parties seg = none := by
        simp only [mentionOfSegment, hsp]
        rw [if_neg hext]
      rw [hval]
      simp only [Option.isSome_none, Bool.false_eq_true, false_iff]
      rintro ⟨⟨sid2, p, hs, hne, hp, hpid, haff⟩, -⟩
      rw [hsp] at hs
      injection hs with hs
      subst hs
      exact hext (List.elem_iff.mpr
        ((mem_external_speaker_ids parties sid).mpr ⟨p, hp, hpid, hne, haff⟩))

theorem mentionOfSegment_competitors_eq (parties : List GongParty)
    (seg : GongSegment) (m : MentionSeg)
    (h : mentionOfSegment parties seg = some m) :
    m.competitors_mentioned = mentionedCompetitors (segFullText seg) := by
  unfold mentionOfSegment at h
  dsimp only at h
  split at h
  · cases h
  · split at h
    · split at h
      · cases h
      · injection h with h
        subst h
        rfl
    · cases h

theorem build_call_context_segments_ne_nil (calls : List GongCall)
    (transcripts : Transcripts) :
    ∀ ctx ∈ build_call_context calls transcripts, ctx.segments ≠ [] := by
  intro ctx hctx
  rw [build_call_context, List.mem_filterMap] at hctx
  obtain ⟨call, -, h⟩ := hctx
  unfold processCall at h
  dsimp only at h
  split at h
  · cases h
  · split at h
    · cases h
    · split at h
      · cases h
      · split at h
        · cases h
        · injection h with h
          subst h
          rename_i hrel
          simpa [List.isEmpty_iff] using hrel

theorem processCall_ne_none_iff (transcripts : Transcripts) (call : GongCall)
    (cid : String) (segs : List GongSegment)
    (hid : call.metaData.id = some cid) (hne : cid ≠ "")
    (hlk : lookupKey transcripts cid = some segs) :
    processCall transcripts call ≠ none ↔
      ∃ seg, seg ∈ segs ∧ segmentQualifies call.parties seg := by
  have hcide : cid.isEmpty = false := (string_ne_empty_iff_isEmpty_false cid).mp hne
  by_cases hrel : (segs.filterMap (mentionOfSegment call.parties)).isEmpty = true
  · have hval : processCall transcripts call = none := by
      simp [processCall, hid, hcide, hlk, hrel]
    rw [hval]
    simp only [ne_eq, not_true_eq_false, false_iff]
    rw [List.isEmpty_iff, List.filterMap_eq_nil_iff] at hrel
    rintro ⟨seg, hseg, hq⟩
    have hsome := (mentionOfSegment_isSome_iff call.parties seg).mpr hq
    rw [hrel seg hseg] at hsome
    cases hsome
  · have hval : processCall transcripts call ≠ none := by
      simp [processCall, hid, hcide, hlk, hrel]
    refine ⟨fun _ => ?_, fun _ => hval⟩
    have hnn : segs.filterMap (mentionOfSegment call.parties) ≠ [] := by
      simpa [List.isEmpty_iff] using hrel
    rcases hm : segs.filterMap (mentionOfSegment call.parties) with _ | ⟨m, ms⟩
    · exact absurd hm hnn
    · have hmem : m ∈ segs.filterMap (mentionOfSegment call.parties) := by
        rw [hm]
        exact List.mem_cons_self m ms
      rw [List.mem_filterMap] at hmem
      obtain ⟨seg, hseg, hsome⟩ := hmem
      refine ⟨seg, hseg, ?_⟩
      rw [← mentionOfSegment_isSome_iff]
      rw [hsome]
      rfl

/-- C1.  Mention-extractor correctness for `build_call_context`: a transcript
segment yields a mention exactly when its speaker id belongs to an
External-affiliated party and the concatenated utterance contains some
competitor name as a case-insensitive substring; a produced mention carries
exactly the competitors matched (all of them); every emitted call context has
at least one segment; the extractor's output entries are exactly the calls
whose per-call processing succeeds, and for a call with a valid id and a
transcript that processing succeeds exactly when some segment qualifies. -/
theorem build_call_context_mention_iff (calls : List GongCall)
    (transcripts : Transcripts) :
    (∀ parties seg, (mentionOfSegment parties seg).isSome = true ↔
       segmentQualifies parties seg) ∧
    (∀ parties seg m, mentionOfSegment parties seg = some m →
       ∀ comp, comp ∈ m.competitors_mentioned ↔
         comp ∈ COMPETITORS ∧ ciSubstring comp (segFullText seg)) ∧
    (∀ ctx, ctx ∈ build_call_context calls transcripts → ctx.segments ≠ []) ∧
    (∀ ctx, ctx ∈ build_call_context calls transcripts ↔
       ∃ call, call ∈ calls ∧ processCall transcripts call = some ctx) ∧
    (∀ call, call ∈ calls → ∀ cid segs, call.metaData.id = some cid →
       cid ≠ "" → lookupKey transcripts cid = some segs →
       (processCall transcripts call ≠ none ↔
         ∃ seg, seg ∈ segs ∧ segmentQualifies call.parties seg)) := by
  refine ⟨mentionOfSegment_isSome_iff, ?_, build_call_context_segments_ne_nil calls transcripts, ?_, ?_⟩
  · intro parties seg m hm comp
    rw [mentionOfSegment_competitors_eq parties seg m hm]
    exact mem_mentionedCompetitors (segFullText seg) comp
  · intro ctx
    rw [build_call_context, List.mem_filterMap]
  · intro call _ cid segs hid hne hlk
    exact processCall_ne_none_iff transcripts call cid segs hid hne hlk

/-- Witness for C1: on a concrete external segment naming two competitors,
the extractor's qualification condition holds. -/
theorem build_call_context_mention_iff_witness :
    segmentQualifies [demoParty] demoSegment :=
  ((build_call_context_mention_iff [] []).1 [demoParty] demoSegment).mp (by decide)

/-- C5.  The synthesizer wrapper caps insights at six: every response yields
at most 6 insights; with a non-empty context, a list-shaped response of any
length is cut to its first six (id-sanitized) elements, and when those six
already carry clean ids the output is literally the first six objects. -/
theorem analyze_with_ai_caps_at_six :
    (∀ ctxs r, (analyze_with_ai ctxs r).length ≤ 6) ∧
    (∀ ctxs xs, ctxs ≠ [] → xs.length = 7 →
       analyze_with_ai ctxs (.arr xs) = (xs.take 6).map cleanInsight ∧
       analyze_with_ai ctxs (.objInsightsList xs) = (xs.take 6).map cleanInsight) ∧
    (∀ ctxs xs, ctxs ≠ [] → xs.length = 7 → (∀ i ∈ xs, cleanInsight i = i) →
       analyze_with_ai ctxs (.arr xs) = xs.take 6) := by
  have hlist : ∀ (ctxs : List CallContext) (xs : List Insight), ctxs ≠ [] →
      analyze_with_ai ctxs (.arr xs) = (xs.take 6).map cleanInsight ∧
      analyze_with_ai ctxs (.objInsightsList xs) = (xs.take 6).map cleanInsight := by
    intro ctxs xs hne
    have hemp : ctxs.isEmpty = false := by
      simpa [List.isEmpty_iff] using hne
    constructor <;>
      simp [analyze_with_ai, hemp, extractInsights, List.map_take]
  refine ⟨?_, fun ctxs xs hne _ => hlist ctxs xs hne, ?_⟩
  · intro ctxs r
    unfold analyze_with_ai
    split
    · exact Nat.le_of_lt (by norm_num)
    · cases r <;> simp only [extractInsights, List.length_take, List.length_nil] <;>
        first
        | exact Nat.min_le_left _ _
        | exact Nat.le_of_lt (by norm_num)
  · intro ctxs xs hne _ hclean
    rw [(hlist ctxs xs hne).1]
    have : ∀ i ∈ xs.take 6, cleanInsight i = i :=
      fun i hi => hclean i (List.take_subset 6 xs hi)
    calc (xs.take 6).map cleanInsight
        = (xs.take 6).map id := List.map_eq_map_iff.mpr this
      _ = xs.take 6 := List.map_id (xs.take 6)

/-- Witness for C5: seven blank insights are cut to exactly the first six. -/
theorem analyze_with_ai_caps_at_six_witness :
    analyze_with_ai [demoContext] (AIResponse.arr sevenInsights) = sevenInsights.take 6 :=
  analyze_with_ai_caps_at_six.2.2 [demoContext] sevenInsights
    (by decide) (by decide) (by decide)

theorem validatedFor_fst (result : List (String × IntelValue)) (c : String) :
    (validatedFor result c).1 = c := by
  unfold validatedFor
  rcases lookupKey result c with _ | v
  · rfl
  · cases v <;> rfl

theorem validatedFor_snd_length_le (result : List (String × IntelValue)) (c : String) :
    (validatedFor result c).2.length ≤ 3 := by
  unfold validatedFor
  rcases lookupKey result c with _ | v
  · exact Nat.le_of_lt (by norm_num)
  · cases v with
    | list bs =>
      simp only [List.length_take]
      exact Nat.min_le_left _ _
    | nonList => exact Nat.le_of_lt (by norm_num)

/-- C6.  Market-intel validation: the validated map covers exactly the
tracked competitors in order, every bullet list is capped at 3, a failed
collaborator call coerces everything to empty lists, and a missing or
non-list value for a tracked competitor is coerced to the empty list —
all without any exception (the model is total). -/
theorem synthesize_intel_validation (response : IntelResponse) :
    ((synthesize_intel response).map Prod.fst = MARKET_INTEL_COMPETITORS) ∧
    (∀ p ∈ synthesize_intel response, p.2.length ≤ 3) ∧
    (synthesize_intel .failed
      = MARKET_INTEL_COMPETITORS.map (fun c => (c, []))) ∧
    (∀ result c, c ∈ MARKET_INTEL_COMPETITORS →
       (lookupKey result c = none ∨ lookupKey result c = some IntelValue.nonList) →
       (c, ([] : List IntelBullet)) ∈ synthesize_intel (.parsed result)) := by
  refine ⟨?_, ?_, rfl, ?_⟩
  · cases response with
    | failed =>
      simp only [synthesize_intel, List.map_map]
      exact List.map_id MARKET_INTEL_COMPETITORS
    | parsed result =>
      simp only [synthesize_intel, List.map_map]
      calc MARKET_INTEL_COMPETITORS.map (Prod.fst ∘ validatedFor result)
          = MARKET_INTEL_COMPETITORS.map id :=
            List.map_eq_map_iff.mpr (fun c _ => validatedFor_fst result c)
        _ = MARKET_INTEL_COMPETITORS := List.map_id _
  · intro p hp
    cases response with
    | failed =>
      rw [synthesize_intel, List.mem_map] at hp
      obtain ⟨c, -, rfl⟩ := hp
      exact Nat.le_of_lt (by norm_num)
    | parsed result =>
      rw [synthesize_intel, List.mem_map] at hp
      obtain ⟨c, -, rfl⟩ := hp
      exact validatedFor_snd_length_le result c
  · intro result c hc hval
    have hv : validatedFor result c = (c, []) := by
      rcases hval with h | h <;> simp [validatedFor, h]
    rw [synthesize_intel, List.mem_map]
    exact ⟨c, hc, hv⟩

/-- Witness for C6: a competitor whose key holds a non-list value comes out
mapped to the empty bullet list. -/
theorem synthesize_intel_validation_witness :
    ("IQVIA", ([] : List IntelBullet)) ∈
      synthesize_intel (IntelResponse.parsed [("IQVIA", IntelValue.nonList)]) :=
  (synthesize_intel_validation (.parsed [("IQVIA", IntelValue.nonList)])).2.2.2
    [("IQVIA", IntelValue.nonList)] "IQVIA" (by decide) (Or.inr (by decide))

/-- C7 (amended).  Pagination: when every response succeeds, the fetch loop
consumes pages up to and including the first whose cursor is missing or
empty — that is then its sole termination condition — and returns the
concatenation of their `calls`; a non-200 response, however, also terminates
the loop, returning only the calls of the earlier pages (the failing page
contributes nothing). -/
theorem fetch_calls_pagination (pages : List GongPage) :
    ((∀ p ∈ pages, p.status = 200) →
       fetch_calls_from_gong pages =
         ((consumedPages pages).map GongPage.calls).flatten) ∧
    (∀ pre page post, (∀ q ∈ pre, q.status = 200 ∧ cursorTruthy q.cursor = true) →
       page.status ≠ 200 →
       fetch_calls_from_gong (pre ++ page :: post)
         = (pre.map GongPage.calls).flatten) := by
  constructor
  · induction pages with
    | nil => intro _; rfl
    | cons p rest ih =>
      intro hok
      have hp : p.status = 200 := hok p (List.mem_cons_self p rest)
      have hrest : ∀ q ∈ rest, q.status = 200 :=
        fun q hq => hok q (List.mem_cons_of_mem p hq)
      cases hcur : cursorTruthy p.cursor with
      | true =>
        simp [fetch_calls_from_gong, consumedPages, hp, hcur, ih hrest]
      | false =>
        simp [fetch_calls_from_gong, consumedPages, hp, hcur]
  · intro pre page post hpre hbad
    induction pre with
    | nil =>
      simp [fetch_calls_from_gong, hbad]
    | cons q rest ih =>
      have hq := hpre q (List.mem_cons_self q rest)
      have hrest : ∀ r ∈ rest, r.status = 200 ∧ cursorTruthy r.cursor = true :=
        fun r hr => hpre r (List.mem_cons_of_mem q hr)
      simp [fetch_calls_from_gong, hq.1, hq.2, ih hrest]

/-- Witness for C7: a successful two-page run concatenates both pages'
calls, stopping at the cursorless second page. -/
theorem fetch_calls_pagination_witness :
    fetch_calls_from_gong [okPageWithCursor, finalPage] =
      ((consumedPages [okPageWithCursor, finalPage]).map GongPage.calls).flatten :=
  (fetch_calls_pagination [okPageWithCursor, finalPage]).1 (by decide)

/-- Counterexample for C7 as stated: a non-200 first response carrying a live
cursor terminates the loop at once and drops even that page's calls, so the
missing/empty cursor is not the sole termination condition and the result is
not the concatenation of the consumed pages' calls. -/
theorem fetch_calls_error_stop_counterexample :
    fetch_calls_from_gong [errorPage, finalPage] = [] ∧
    errorPage.status ≠ 200 ∧ cursorTruthy errorPage.cursor = true ∧
    ((consumedPages [errorPage, finalPage]).map GongPage.calls).flatten
      = [demoGongCallA, demoGongCallB] ∧
    ([] : List GongCall) ≠ [demoGongCallA, demoGongCallB] := by
  refine ⟨rfl, by decide, rfl, rfl, by decide⟩

theorem storeGet_storeRemove_self (store : DigestStore) (k : String) :
    storeGet (storeRemove store k) k = none := by
  induction store with
  | nil => rfl
  | cons p rest ih =>
    by_cases h : (p.1 == k) = true
    · have hb : (p.1 != k) = false := by simp [bne, h]
      simp only [storeRemove, List.filter_cons, hb, Bool.false_eq_true, if_false]
      exact ih
    · have hb : (p.1 != k) = true := by simp [bne, h]
      simp only [storeRemove, List.filter_cons, hb, if_true]
      simp only [storeGet, lookupKey, List.find?, h]
      exact ih

theorem storeGet_storeSet_self (store : DigestStore) (k : String)
    (d d0 : DigestData) (h : storeGet store k = some d0) :
    storeGet (storeSet store k d) k = some d := by
  induction store with
  | nil => cases h
  | cons p rest ih =>
    by_cases hpk : (p.1 == k) = true
    · simp only [storeSet, List.map_cons, hpk, if_true]
      simp [storeGet, lookupKey, List.find?]
    · simp only [storeSet, List.map_cons, hpk, Bool.false_eq_true, if_false]
      simp only [storeGet, lookupKey, List.find?, hpk, Bool.false_eq_true] at h ⊢
      exact ih h

/-- C2 (amended).  Store discipline of the approve/dismiss handlers: approve
on an absent id changes nothing, publishes nothing and reports expiry to the
interacting channel; dismiss never reports expiry — it always removes the id
(a no-op when absent) and rewrites the review message to the dismissed
notice; approve on a present id removes the entry exactly when publishing
succeeds (retained on failure, see the error-handling contract), after which
a second approve reports expiry. -/
theorem approve_dismiss_store_discipline (store : DigestStore)
    (ch ts ch2 ts2 digestId : String) (ok : Bool) (d : DigestData) :
    (storeGet store digestId = none →
       handle_approve store ch ts digestId ok
         = (store, .expiredNotice ch EXPIRED_TEXT)) ∧
    (handle_dismiss store ch ts digestId
       = (storeRemove store digestId, .dismissedNotice ch ts DISMISSED_TEXT)) ∧
    (storeGet (storeRemove store digestId) digestId = none) ∧
    (storeGet store digestId = some d →
       handle_approve store ch ts digestId true
         = (storeRemove store digestId,
            .published TARGET_CHANNEL (approveBlocks d) ch ts) ∧
       handle_approve (storeRemove store digestId) ch2 ts2 digestId ok
         = (storeRemove store digestId, .expiredNotice ch2 EXPIRED_TEXT)) ∧
    (storeGet store digestId = some d →
       handle_approve store ch ts digestId false = (store, .errorNotice ch)) := by
  refine ⟨?_, rfl, storeGet_storeRemove_self store digestId, ?_, ?_⟩
  · intro h
    simp [handle_approve, h]
  · intro h
    constructor
    · simp [handle_approve, h]
    · simp [handle_approve, storeGet_storeRemove_self store digestId]
  · intro h
    simp [handle_approve, h]

/-- Witness for C2: approve on an id absent from an empty store reports
expiry and leaves the store empty. -/
theorem approve_dismiss_store_discipline_witness :
    handle_approve ([] : DigestStore) "D042" "100.1" "gone" true
      = ([], ApproveOutcome.expiredNotice "D042" EXPIRED_TEXT) :=
  (approve_dismiss_store_discipline [] "D042" "100.1" "D042" "100.1" "gone"
    true demoDigest).1 rfl

/-- Counterexample for C2 as stated: dismiss on an absent id does not yield
an "expired" outcome — it rewrites the review message to the dismissed
notice; and approve on a present id does not remove the entry when
publishing fails. -/
theorem dismiss_expiry_counterexample :
    storeGet ([] : DigestStore) "gone" = none ∧
    handle_dismiss ([] : DigestStore) "D042" "100.1" "gone"
      = ([], DismissOutcome.dismissedNotice "D042" "100.1" DISMISSED_TEXT) ∧
    DISMISSED_TEXT ≠ EXPIRED_TEXT ∧
    storeGet [("a1", demoDigest)] "a1" = some demoDigest ∧
    (handle_approve [("a1", demoDigest)] "D042" "100.1" "a1" false).1
      = [("a1", demoDigest)] := by
  exact ⟨rfl, rfl, by decide, rfl, rfl⟩

/-- C10.  Approve is atomic with respect to the store on publish failure:
when a client call of the publish block raises, the entry is left in the
store unchanged and the approver gets an error notice in the channel they
were interacting in. -/
theorem approve_publish_failure_atomic (store : DigestStore)
    (ch ts digestId : String) (d : DigestData)
    (hget : storeGet store digestId = some d) :
    handle_approve store ch ts digestId false
      = (store, ApproveOutcome.errorNotice ch) ∧
    storeGet (handle_approve store ch ts digestId false).1 digestId = some d := by
  have h1 : handle_approve store ch ts digestId false = (store, .errorNotice ch) := by
    simp [handle_approve, hget]
  refine ⟨h1, ?_⟩
  rw [h1]
  exact hget

/-- Witness for C10: a concrete one-entry store survives a failed publish
untouched, with the error notice in the interacting channel. -/
theorem approve_publish_failure_atomic_witness :
    handle_approve [("a2", demoDigest)] "D042" "100.1" "a2" false
      = ([("a2", demoDigest)], ApproveOutcome.errorNotice "D042") :=
  (approve_publish_failure_atomic [("a2", demoDigest)] "D042" "100.1" "a2"
    demoDigest rfl).1

/-- C3 (amended).  `submitEdit` followed by `edit`: for a non-empty submitted
text the edit view is seeded with exactly that text; for the empty string,
Python's `or` falls back and the view is seeded with the original
pre-rendered text instead. -/
theorem submit_then_edit_seeds_stored_text (store : DigestStore)
    (digestId newText newTs ch ts : String) (d : DigestData)
    (hget : storeGet store digestId = some d) :
    (newText ≠ "" →
       (handle_edit (handle_edit_submission store digestId newText newTs).1
           ch ts digestId).2 = EditOutcome.modalOpened newText) ∧
    (newText = "" →
       (handle_edit (handle_edit_submission store digestId newText newTs).1
           ch ts digestId).2 = EditOutcome.modalOpened d.editable_text) := by
  have key : ∀ d1 : DigestData, d1.edited_text = some newText →
      d1.editable_text = d.editable_text →
      (handle_edit (storeSet store digestId d1) ch ts digestId).2
        = EditOutcome.modalOpened
            (if newText.isEmpty then d.editable_text else newText) := by
    intro d1 he hed
    have hget2 : storeGet (storeSet store digestId d1) digestId = some d1 :=
      storeGet_storeSet_self store digestId d1 d hget
    simp only [handle_edit, hget2]
    simp [currentEditText, he, hed]
  rcases hch : d.channel_id with _ | c
  · have h1 : (handle_edit_submission store digestId newText newTs).1
        = storeSet store digestId { d with edited_text := some newText } := by
      simp [handle_edit_submission, hget, hch]
    rw [h1]
    rw [key { d with edited_text := some newText } rfl rfl]
    constructor
    · intro hne
      rw [if_neg (by simp [(string_ne_empty_iff_isEmpty_false newText).mp hne])]
    · intro heq
      subst heq
      rfl
  · have h1 : (handle_edit_submission store digestId newText newTs).1
        = storeSet store digestId
            { d with edited_text := some newText, message_ts := some newTs } := by
      simp [handle_edit_submission, hget, hch]
    rw [h1]
    rw [key { d with edited_text := some newText, message_ts := some newTs } rfl rfl]
    constructor
    · intro hne
      rw [if_neg (by simp [(string_ne_empty_iff_isEmpty_false newText).mp hne])]
    · intro heq
      subst heq
      rfl

/-- Witness for C3: submitting the text `"X"` and reopening the editor seeds
it with `"X"`. -/
theorem submit_then_edit_seeds_stored_text_witness :
    (handle_edit (handle_edit_submission [("d1", demoDigest)] "d1" "X" "222.0").1
        "D042" "333.0" "d1").2 = EditOutcome.modalOpened "X" :=
  (submit_then_edit_seeds_stored_text [("d1", demoDigest)] "d1" "X" "222.0"
    "D042" "333.0" demoDigest rfl).1 (by decide)

/-- Counterexample for C3 as stated: after submitting the empty string, the
edit view is seeded with the original pre-rendered digest text, not with the
submitted empty text. -/
theorem edit_after_empty_submit_counterexample :
    (handle_edit (handle_edit_submission [("d1", demoDigest)] "d1" "" "222.0").1
        "D042" "333.0" "d1").2
      = EditOutcome.modalOpened "*COMPETITOR INTELLIGENCE REPORT*" ∧
    ("*COMPETITOR INTELLIGENCE REPORT*" : String) ≠ "" := by
  exact ⟨rfl, by decide⟩

/-! ## Chunking lemmas (C4) -/

theorem pyStrip_length_le (l : List Char) : (pyStrip l).length ≤ l.length := by
  unfold pyStrip
  rw [List.length_reverse]
  calc ((l.dropWhile isPySpace).reverse.dropWhile isPySpace).length
      ≤ (l.dropWhile isPySpace).reverse.length :=
        List.Sublist.length_le (List.dropWhile_sublist isPySpace)
    _ = (l.dropWhile isPySpace).length := List.length_reverse _
    _ ≤ l.length := List.Sublist.length_le (List.dropWhile_sublist isPySpace)

/-- The spec's bound on one rendered block: within the ceiling, or the strip
of a single delimiter-separated section that alone exceeds the ceiling. -/
def goodBlock (sections : List (List Char)) (b : List Char) : Prop :=
  b.length ≤ SLACK_MAX_CHARS ∨
    ∃ s, s ∈ sections ∧ b = pyStrip s ∧ SLACK_MAX_CHARS < s.length

theorem flush_goodBlock (S : List (List Char)) (chunk : List Char)
    (hchunk : chunk.length ≤ SLACK_MAX_CHARS ∨ chunk ∈ S)
    (acc : List (List Char)) (hacc : ∀ b ∈ acc, goodBlock S b) :
    ∀ b ∈ (if (pyStrip chunk).isEmpty then acc else acc ++ [pyStrip chunk]),
      goodBlock S b := by
  intro b hb
  split at hb
  · exact hacc b hb
  · rcases List.mem_append.mp hb with h | h
    · exact hacc b h
    · rw [List.mem_singleton] at h
      subst h
      by_cases hlen : chunk.length ≤ SLACK_MAX_CHARS
      · exact Or.inl (le_trans (pyStrip_length_le chunk) hlen)
      · rcases hchunk with h | h
        · exact absurd h hlen
        · exact Or.inr ⟨chunk, h, rfl, Nat.lt_of_not_le hlen⟩

theorem packChunks_goodBlock (joiner : List Char) (hj : joiner.length ≤ 4)
    (S : List (List Char)) :
    ∀ sections : List (List Char), (∀ s ∈ sections, s ∈ S) →
    ∀ chunk : List Char, chunk.length ≤ SLACK_MAX_CHARS ∨ chunk ∈ S →
    ∀ acc : List (List Char), (∀ b ∈ acc, goodBlock S b) →
    ∀ b ∈ packChunks joiner sections chunk acc, goodBlock S b := by
  intro sections
  induction sections with
  | nil =>
    intro _ chunk hchunk acc hacc b hb
    exact flush_goodBlock S chunk hchunk acc hacc b hb
  | cons s rest ih =>
    intro hsub chunk hchunk acc hacc b hb
    have hsS : s ∈ S := hsub s (List.mem_cons_self s rest)
    have hrestS : ∀ u ∈ rest, u ∈ S :=
      fun u hu => hsub u (List.mem_cons_of_mem s hu)
    unfold packChunks at hb
    split at hb
    · rename_i hfit
      split at hb
      · exact ih hrestS s (Or.inl (by omega)) acc hacc b hb
      · refine ih hrestS (chunk ++ joiner ++ s) (Or.inl ?_) acc hacc b hb
        simp only [List.length_append]
        omega
    · exact ih hrestS s (Or.inr hsS) _
        (flush_goodBlock S chunk hchunk acc hacc) b hb

/-- C4 (amended).  Chunking of edited free text, for both renderers (approve
and modal re-post): a blob within the 2900-character ceiling is rendered as
exactly one content block holding it verbatim; a longer blob is split into
greedily packed `---`-section blocks, and no produced block exceeds the
ceiling except the strip of a single section that alone exceeds it (emitted
whole up to whitespace trimming, never truncated). -/
theorem edited_chunking_spec (t : List Char) :
    (t.length ≤ SLACK_MAX_CHARS →
       approveEditedChunks t = [t] ∧ resendEditedChunks t = [t]) ∧
    (∀ b ∈ approveEditedChunks t, goodBlock (pySplit t dashesSep) b) ∧
    (∀ b ∈ resendEditedChunks t, goodBlock (pySplit t dashesSep) b) := by
  refine ⟨?_, ?_, ?_⟩
  · intro h
    constructor <;> simp [approveEditedChunks, resendEditedChunks, h]
  · intro b hb
    unfold approveEditedChunks at hb
    split at hb
    · rename_i hle
      rw [List.mem_singleton] at hb
      subst hb
      exact Or.inl hle
    · exact packChunks_goodBlock newlineDashesSep (by decide) (pySplit t dashesSep)
        (pySplit t dashesSep) (fun s hs => hs) [] (Or.inl (by simp [SLACK_MAX_CHARS]))
        [] (by simp) b hb
  · intro b hb
    unfold resendEditedChunks at hb
    split at hb
    · rename_i hle
      rw [List.mem_singleton] at hb
      subst hb
      exact Or.inl hle
    · exact packChunks_goodBlock dashesSep (by decide) (pySplit t dashesSep)
        (pySplit t dashesSep) (fun s hs => hs) [] (Or.inl (by simp [SLACK_MAX_CHARS]))
        [] (by simp) b hb

/-- Witness for C4: a short blob renders as its single verbatim block. -/
theorem edited_chunking_spec_witness :
    approveEditedChunks ['o', 'k'] = [['o', 'k']] ∧
    resendEditedChunks ['o', 'k'] = [['o', 'k']] :=
  (edited_chunking_spec ['o', 'k']).1 (by decide)

theorem splitOnSeqAux_replicate_a (n : Nat) :
    ∀ acc : List Char,
      splitOnSeqAux dashesSep (List.replicate n 'a') acc
        = [acc.reverse ++ List.replicate n 'a'] := by
  induction n with
  | zero =>
    intro acc
    simp [splitOnSeqAux]
  | succ k ih =>
    intro acc
    have hpre : dashesSep.isPrefixOf ('a' :: List.replicate k 'a') = false := by
      simp [dashesSep, List.isPrefixOf]
    rw [List.replicate_succ]
    rw [splitOnSeqAux, hpre]
    simp only [Bool.false_eq_true, if_false, ih, List.reverse_cons,
      List.append_assoc, List.singleton_append]

theorem dropWhile_isPySpace_replicate_a (n : Nat) :
    (List.replicate n 'a').dropWhile isPySpace = List.replicate n 'a' := by
  cases n with
  | zero => rfl
  | succ k =>
    rw [List.replicate_succ, List.dropWhile_cons]
    simp [isPySpace]

theorem pyStrip_replicate_a (n : Nat) :
    pyStrip (List.replicate n 'a') = List.replicate n 'a' := by
  unfold pyStrip
  rw [dropWhile_isPySpace_replicate_a, List.reverse_replicate,
    dropWhile_isPySpace_replicate_a, List.reverse_replicate]

/-- Counterexample for C4 as stated: an edited blob of 2901 characters with
no `---` delimiter — its delimiter-separated sections (one section, the
whole blob) concatenate to more than the ceiling — renders as exactly ONE
block, not two or more. -/
theorem packChunks_single_oversized (joiner s : List Char)
    (hbig : ¬ s.length + 4 ≤ SLACK_MAX_CHARS)
    (hstrip : pyStrip s = s) (hne : s.isEmpty = false) :
    packChunks joiner [s] [] [] = [s] := by
  have hstrip0 : pyStrip ([] : List Char) = [] := rfl
  simp only [packChunks, List.length_nil, Nat.zero_add, hstrip0,
    List.isEmpty_nil, if_true, hstrip, hne, Bool.false_eq_true, if_false,
    List.nil_append]
  rw [if_neg hbig]

theorem edited_chunking_counterexample :
    SLACK_MAX_CHARS < oversizedBlob.length ∧
    approveEditedChunks oversizedBlob = [oversizedBlob] ∧
    ¬ 2 ≤ (approveEditedChunks oversizedBlob).length := by
  have hlen : oversizedBlob.length = 2901 := by
    simp only [oversizedBlob, List.length_replicate]
  have hsplit : pySplit oversizedBlob dashesSep = [oversizedBlob] := by
    unfold pySplit oversizedBlob
    rw [splitOnSeqAux_replicate_a]
    simp only [List.reverse_nil, List.nil_append]
  have hstrip : pyStrip oversizedBlob = oversizedBlob := pyStrip_replicate_a 2901
  have hne : oversizedBlob.isEmpty = false := by
    unfold oversizedBlob
    rw [List.replicate_succ]
    rfl
  have hone : approveEditedChunks oversizedBlob = [oversizedBlob] := by
    unfold approveEditedChunks
    rw [if_neg (by rw [hlen]; norm_num [SLACK_MAX_CHARS]), hsplit,
      packChunks_single_oversized newlineDashesSep oversizedBlob
        (by rw [hlen]; norm_num [SLACK_MAX_CHARS]) hstrip hne]
  refine ⟨by rw [hlen]; norm_num [SLACK_MAX_CHARS], hone, ?_⟩
  rw [hone]
  simp

/-- C9 (amended).  A tracked competitor with no insights and no intel
bullets is silently omitted from the rendered digest — it never enters the
active-competitor list that drives section rendering; only when no
competitor at all has data does the digest show the single global "no
competitor intelligence found" notice. -/
theorem no_data_competitor_omitted (insights : List Insight)
    (dr : String × String) (intel : List (String × List IntelBullet))
    (comp : String) :
    (hasGong insights comp = false → hasMarket intel comp = false →
       comp ∉ active_competitors insights intel) ∧
    (active_competitors insights intel = [] →
       SBlock.sectionBlock NO_DATA_TEXT ∈ format_slack_blocks insights dr intel) := by
  constructor
  · intro hg hm hmem
    rcases List.mem_append.mp hmem with h | h
    · rw [List.mem_filter] at h
      rcases h with ⟨-, hcond⟩
      rw [hg, hm] at hcond
      cases hcond
    · split at h
      · rw [List.mem_singleton] at h
        subst h
        rename_i hu
        rw [hg] at hu
        cases hu
      · cases h
  · intro hact
    simp [format_slack_blocks, hact]

/-- Witness for C9: with one MedScout insight and no market intel, the
tracked competitor IQVIA is absent from the active list. -/
theorem no_data_competitor_omitted_witness :
    "IQVIA" ∉ active_competitors [blankInsight] [] :=
  (no_data_competitor_omitted [blankInsight] demoDateRange [] "IQVIA").1
    (by decide) (by decide)

/-- Counterexample for C9 as stated: IQVIA is tracked and has neither
insights nor bullets in this concrete input, yet no rendered block so much
as mentions it — the digest silently omits the competitor instead of
visibly reflecting a "no data" state for it. -/
theorem silent_omission_counterexample :
    "IQVIA" ∈ ALL_COMPETITORS_ORDER ∧
    hasGong [blankInsight] "IQVIA" = false ∧
    hasMarket ([] : List (String × List IntelBullet)) "IQVIA" = false ∧
    (format_slack_blocks [blankInsight] demoDateRange []).all
      (fun b => !(blockMentions b "IQVIA")) = true := by
  exact ⟨by decide, by decide, by decide, by decide⟩

end SlackCompetitorBot
